import Mathlib

/-!
# REDasm processor plugins: `redasm/plugins/processor/processor.h`

A shallow embedding of the processor-plugin header: the capability flags
(`ProcessorFlags`), the endianness-aware primitive reader
(`ProcessorPlugin::read<T>`), the state stack, and the Capstone adapter
(`CapstoneProcessorPlugin::decode`).

Conventions.
* Machine integers are natural numbers; a value of a `sizeofT`-byte unsigned type is a
  number below `256 ^ sizeofT`.
* A `Buffer` is the source's `(data, length)` pair: `data` lists the bytes found in
  memory from the pointer on, `length` is the declared window length.
* A by-reference parameter is returned next to the result (explicit state passing).
* Code that the header only uses (the Capstone engine, the base `decode` hook, the
  `InstructionTypes` constants) is a parameter of the definitions.
-/

set_option autoImplicit false

namespace REDasm

/-! ## Data model -/

/-- The two byte orders of `Endianness` (`endianness_t`). -/
inductive endianness_t
  | LittleEndian
  | BigEndian
deriving DecidableEq, Repr

/-- The byte window `Buffer`: `data` holds the bytes readable from the pointer on,
`length` is the window length field. -/
structure Buffer where
  data : List Nat
  length : Nat
deriving DecidableEq, Repr

namespace ProcessorFlags

/-- The flag `ProcessorFlags::None`. -/
def None : Nat := 0
/-- The flag `ProcessorFlags::DelaySlot`. -/
def DelaySlot : Nat := 1
/-- The flag `ProcessorFlags::HasVMIL`. -/
def HasVMIL : Nat := 0x00010000
/-- The flag `ProcessorFlags::EmulateVMIL`. -/
def EmulateVMIL : Nat := 0x00020000

end ProcessorFlags

namespace Endianness

/-- Value of a byte sequence stored least significant byte first. -/
def fromLE : List Nat → Nat
  | [] => 0
  | b :: bs => b % 256 + 256 * fromLE bs

/-- Value of a byte sequence stored most significant byte first. -/
def fromBE (bs : List Nat) : Nat :=
  bs.foldl (fun acc b => acc * 256 + b % 256) 0

/-- The `n` bytes of `v`, least significant first (the in-memory image of `v` on a
little-endian machine). -/
def toLE : Nat → Nat → List Nat
  | 0, _ => []
  | n + 1, v => v % 256 :: toLE n (v / 256)

/-- What `*(reinterpret_cast<T*>(p))` yields on a machine of byte order `current` when
the bytes at `p` are `bytes`. -/
def fromHost (current : endianness_t) (bytes : List Nat) : Nat :=
  if current = endianness_t.BigEndian then fromBE bytes else fromLE bytes

/-- Modelled from the spec: `Endianness::swap` of `support/endianness.h` (not in this
header), the reversal of the `sizeofT` bytes of a value. -/
def swap (sizeofT t : Nat) : Nat :=
  fromLE (toLE sizeofT t).reverse

/-- Modelled from the spec: `Endianness::cfbe` of `support/endianness.h` (not in this
header), the in-place conversion of a big-endian value to the byte order `current` of
the machine: a byte swap unless the machine is big-endian itself. -/
def cfbe (current : endianness_t) (sizeofT t : Nat) : Nat :=
  if current = endianness_t.BigEndian then t else swap sizeofT t

/-- Modelled from the spec: `Endianness::cfle` of `support/endianness.h` (not in this
header), the in-place conversion of a little-endian value to the byte order `current`
of the machine: a byte swap unless the machine is little-endian itself. -/
def cfle (current : endianness_t) (sizeofT t : Nat) : Nat :=
  if current = endianness_t.LittleEndian then t else swap sizeofT t

end Endianness

/-- The private members of `ProcessorPlugin`. -/
structure ProcessorPlugin where
  _statestack : List Nat
  _endianness : endianness_t
deriving DecidableEq, Repr

namespace ProcessorPlugin

/-- Modelled from the spec: the accessor `ProcessorPlugin::endianness()` (its body is in
processor.cpp, not in this header) returns the configured byte order. -/
def endianness (self : ProcessorPlugin) : endianness_t :=
  self._endianness

/-- The member `template<typename T> T ProcessorPlugin::read(Buffer& buffer)` for a
`sizeofT`-byte unsigned `T`, on a machine of byte order `current`.  The result pairs the
returned value with the buffer as the call leaves it.  Dereferencing fewer than `sizeofT`
readable bytes is undefined in the source and gives `none` here. -/
def read (current : endianness_t) (self : ProcessorPlugin) (sizeofT : Nat)
    (buffer : Buffer) : Option (Nat × Buffer) :=
  if buffer.data.length < sizeofT then none
  else
    let t := Endianness.fromHost current (buffer.data.take sizeofT)
    let t :=
      if self.endianness = endianness_t.BigEndian then Endianness.cfbe current sizeofT t
      else Endianness.cfle current sizeofT t
    some (t, buffer)

end ProcessorPlugin

/-- The value whose `n` bytes are those of `v` in reverse order: byte `i` of `v`
(counted from the least significant one) becomes byte `n - 1 - i`. -/
def byteReversed (n v : Nat) : Nat :=
  (List.range n).foldl (fun acc i => acc * 256 + v / 256 ^ i % 256) 0

/-! ## The state stack -/

/-- Modelled from the spec: `ProcessorPlugin::pushState` (the header declares
`void pushState()`, its body is in processor.cpp) puts a 32-bit state snapshot on top of
the state stack; the snapshot taken by the call is the argument `snapshot`. -/
def ProcessorPlugin.pushState (snapshot : Nat) (self : ProcessorPlugin) : ProcessorPlugin :=
  { self with _statestack := snapshot % 2 ^ 32 :: self._statestack }

/-- Modelled from the spec: `ProcessorPlugin::popState` (the header declares
`void popState()`, its body is in processor.cpp) takes the top snapshot off the state
stack and yields it with the plugin that remains; on an empty stack it is a defect and
yields nothing. -/
def ProcessorPlugin.popState (self : ProcessorPlugin) : Option (Nat × ProcessorPlugin) :=
  match self._statestack with
  | [] => none
  | top :: rest => some (top, { self with _statestack := rest })

/-- One `pushState` call per snapshot of the list, in order. -/
def pushStates : List Nat → ProcessorPlugin → ProcessorPlugin
  | [], self => self
  | v :: vs, self => pushStates vs (self.pushState v)

/-- The given number of `popState` calls in a row: the snapshots they yield, in call
order, and the plugin left; `none` as soon as one of them hits an empty stack. -/
def popStates : Nat → ProcessorPlugin → Option (List Nat × ProcessorPlugin)
  | 0, self => some ([], self)
  | n + 1, self =>
    match self.popState with
    | none => none
    | some (top, self1) =>
      match popStates n self1 with
      | none => none
      | some (tops, self2) => some (top :: tops, self2)

/-! ## The Capstone adapter -/

/-- The instruction groups of Capstone (`cs_group_type`) that the adapter queries. -/
inductive cs_group_type
  | CS_GRP_JUMP
  | CS_GRP_CALL
  | CS_GRP_RET
  | CS_GRP_INT
  | CS_GRP_IRET
deriving DecidableEq, Repr

/-- Capstone's `cs_insn`: the fields the adapter reads, and the group list of its detail
record. -/
structure cs_insn where
  id : Nat
  address : Nat
  size : Nat
  mnemonic : String
  groups : List cs_group_type
deriving DecidableEq, Repr

/-- The Capstone engine behind a handle (`csh`), a parameter of the adapter.
`cs_disasm_iter code size address` is `none` when the C function returns false; on
success it gives the filled `cs_insn` and the values it leaves in `*code`, `*size` and
`*address`.  `cs_insn_group insn group` is the C function of the same name. -/
structure Capstone where
  cs_disasm_iter : List Nat → Nat → Nat → Option (cs_insn × List Nat × Nat × Nat)
  cs_insn_group : cs_insn → cs_group_type → Bool

/-- A call into the engine made by a release hook. -/
inductive EngineCall
  | cs_free (insn : Option cs_insn) (count : Nat)
deriving DecidableEq, Repr

/-- The instruction record behind an `InstructionPtr` (declared in redasm.h): the fields
the adapter reads or writes.  `userdata` is a nullable pointer to the engine object,
`free` the release hook, given by the engine calls it makes on its argument. -/
structure Instruction where
  address : Nat
  type : Nat
  mnemonic : String
  id : Nat
  size : Nat
  userdata : Option cs_insn
  free : Option (Option cs_insn → List EngineCall)

/-- The `InstructionTypes` constants used by the adapter (declared in redasm.h, not in
this header), a parameter of the adapter. -/
structure InstructionTypes where
  Jump : Nat
  Call : Nat
  Stop : Nat
  Privileged : Nat
deriving DecidableEq, Repr

/-- Modelled from the spec: the value of `InstructionTypes::Jump` (declared in redasm.h,
not in this header), which the spec gives as `1<<0`. -/
def InstructionTypes.JumpBit : Nat := 1 <<< 0

/-- Modelled from the spec: the base hook `ProcessorPlugin::decode` (body in
processor.cpp, not in this header), a success that leaves the record as it is. -/
def ProcessorPlugin.decode (_buffer : Buffer) (instruction : Instruction) :
    Bool × Instruction :=
  (true, instruction)

/-- The member `CapstoneProcessorPlugin<arch, mode>::decode(Buffer buffer, const
InstructionPtr& instruction)`: the returned flag and the record as the call leaves it.
`cs` is the engine behind `_cshandle`, `base` the hook `ProcessorPlugin::decode` called
in the last line, `types` the `InstructionTypes` constants.  The object obtained from
`cs_malloc` is the `cs_insn` the engine fills; the allocation itself is not modelled. -/
def CapstoneProcessorPlugin.decode (types : InstructionTypes) (cs : Capstone)
    (base : Buffer → Instruction → Bool × Instruction)
    (buffer : Buffer) (instruction : Instruction) : Bool × Instruction :=
  let address := instruction.address
  let pdata := buffer.data
  match cs.cs_disasm_iter pdata buffer.length address with
  | none => (false, instruction)
  | some (insn, _pdata, length, _address) =>
    let buffer : Buffer := { buffer with length := length }
    let instruction :=
      if cs.cs_insn_group insn cs_group_type.CS_GRP_JUMP then
        { instruction with type := instruction.type ||| types.Jump }
      else instruction
    let instruction :=
      if cs.cs_insn_group insn cs_group_type.CS_GRP_CALL then
        { instruction with type := instruction.type ||| types.Call }
      else instruction
    let instruction :=
      if cs.cs_insn_group insn cs_group_type.CS_GRP_RET then
        { instruction with type := instruction.type ||| types.Stop }
      else instruction
    let instruction :=
      if cs.cs_insn_group insn cs_group_type.CS_GRP_INT
          || cs.cs_insn_group insn cs_group_type.CS_GRP_IRET then
        { instruction with type := instruction.type ||| types.Privileged }
      else instruction
    let instruction := { instruction with mnemonic := insn.mnemonic }
    let instruction := { instruction with id := insn.id }
    let instruction := { instruction with size := insn.size }
    let instruction := { instruction with userdata := some insn }
    let instruction :=
      { instruction with free := some (fun userdata => [EngineCall.cs_free userdata 1]) }
    base buffer instruction

/-! ## Specification-level notions -/

/-- The union of the canonical flags selected by the group membership of `insn`:
jump gives `Jump`, call gives `Call`, return gives `Stop`, interrupt or interrupt-return
gives `Privileged`. -/
def groupFlags (types : InstructionTypes) (cs : Capstone) (insn : cs_insn) : Nat :=
  (if cs.cs_insn_group insn cs_group_type.CS_GRP_JUMP then types.Jump else 0)
    ||| (if cs.cs_insn_group insn cs_group_type.CS_GRP_CALL then types.Call else 0)
    ||| (if cs.cs_insn_group insn cs_group_type.CS_GRP_RET then types.Stop else 0)
    ||| (if cs.cs_insn_group insn cs_group_type.CS_GRP_INT
          || cs.cs_insn_group insn cs_group_type.CS_GRP_IRET then types.Privileged else 0)

/-- The release hook that hands its argument to the deallocator of the engine, for one
object. -/
def releaseOne : Option cs_insn → List EngineCall :=
  fun userdata => [EngineCall.cs_free userdata 1]

/-- The populated record of the spec: the record `r` of the caller with the group flags
added to `type`, `mnemonic`, `id`, `size` taken from the decoded instruction, the engine
object as `userdata`, and the release hook; `address` is that of `r`. -/
def populated (types : InstructionTypes) (cs : Capstone) (r : Instruction)
    (insn : cs_insn) : Instruction :=
  { address := r.address
    type := r.type ||| groupFlags types cs insn
    mnemonic := insn.mnemonic
    id := insn.id
    size := insn.size
    userdata := some insn
    free := some releaseOne }

/-- A mask `t` includes the flag `f`. -/
def includes (t f : Nat) : Prop := t &&& f ≠ 0

/-- The four canonical flags are non-zero and share no bit with one another. -/
def InstructionTypes.Distinct (types : InstructionTypes) : Prop :=
  types.Jump ≠ 0 ∧ types.Call ≠ 0 ∧ types.Stop ≠ 0 ∧ types.Privileged ≠ 0
    ∧ types.Jump &&& types.Call = 0 ∧ types.Jump &&& types.Stop = 0
    ∧ types.Jump &&& types.Privileged = 0 ∧ types.Call &&& types.Stop = 0
    ∧ types.Call &&& types.Privileged = 0 ∧ types.Stop &&& types.Privileged = 0

/-- The record `i` carries the decoded instruction `insn`: its `mnemonic`, `id` and `size`
are those of `insn`, its `userdata` is the engine object, and its release hook, run on
that `userdata`, makes exactly one engine call, `cs_free` of that object with count 1. -/
def carries (insn : cs_insn) (i : Instruction) : Prop :=
  i.mnemonic = insn.mnemonic ∧ i.id = insn.id ∧ i.size = insn.size
    ∧ i.userdata = some insn
    ∧ i.free.map (fun hook => hook i.userdata) = some [EngineCall.cs_free (some insn) 1]

/-- The flags of `insn` put it in the jump group and in none of the call, return,
interrupt and interrupt-return groups. -/
def jumpOnly (cs : Capstone) (insn : cs_insn) : Prop :=
  cs.cs_insn_group insn cs_group_type.CS_GRP_JUMP = true
    ∧ cs.cs_insn_group insn cs_group_type.CS_GRP_CALL = false
    ∧ cs.cs_insn_group insn cs_group_type.CS_GRP_RET = false
    ∧ cs.cs_insn_group insn cs_group_type.CS_GRP_INT = false
    ∧ cs.cs_insn_group insn cs_group_type.CS_GRP_IRET = false

/-! ## Sample inputs -/

/-- A table of canonical flags with `Jump = 1<<0` and one bit each for the others. -/
def sampleTypes : InstructionTypes :=
  { Jump := InstructionTypes.JumpBit, Call := 2, Stop := 4, Privileged := 8 }

/-- The one-byte opcodes of a small sample engine: identifier, length, mnemonic,
groups. -/
def sampleOpcode (op : Nat) : Option (Nat × Nat × String × List cs_group_type) :=
  if op = 0x90 then some (1, 1, "nop", [])
  else if op = 0xC3 then some (2, 1, "ret", [cs_group_type.CS_GRP_RET])
  else if op = 0xE9 then some (3, 5, "jmp", [cs_group_type.CS_GRP_JUMP])
  else if op = 0xE8 then some (4, 5, "call", [cs_group_type.CS_GRP_CALL])
  else if op = 0xCD then some (5, 2, "int", [cs_group_type.CS_GRP_INT])
  else if op = 0xCF then
    some (6, 1, "iret", [cs_group_type.CS_GRP_IRET, cs_group_type.CS_GRP_RET])
  else none

/-- A small sample engine: it decodes the opcodes of `sampleOpcode` when the window holds
the whole instruction, advances code, size and address by the instruction length, and
fails otherwise. -/
def sampleEngine : Capstone :=
  { cs_disasm_iter := fun code size address =>
      match code with
      | [] => none
      | op :: _ =>
        match sampleOpcode op with
        | none => none
        | some (id, len, mnemonic, groups) =>
          if len ≤ size ∧ len ≤ code.length then
            some ({ id := id, address := address, size := len, mnemonic := mnemonic,
                    groups := groups }, code.drop len, size - len, address + len)
          else none
    cs_insn_group := fun insn group => insn.groups.contains group }

/-- The jump of the sample engine as decoded at address `0x1000`. -/
def sampleJmp : cs_insn :=
  { id := 3, address := 0x1000, size := 5, mnemonic := "jmp",
    groups := [cs_group_type.CS_GRP_JUMP] }

/-- The interrupt-return of the sample engine as decoded at address `0x1000`. -/
def sampleIret : cs_insn :=
  { id := 6, address := 0x1000, size := 1, mnemonic := "iret",
    groups := [cs_group_type.CS_GRP_IRET, cs_group_type.CS_GRP_RET] }

/-- A base hook that vetoes every record. -/
def vetoHook (_buffer : Buffer) (instruction : Instruction) : Bool × Instruction :=
  (false, instruction)

/-- A record as a caller constructs it: everything zero or empty but the address. -/
def freshRecord (address : Nat) : Instruction :=
  { address := address, type := 0, mnemonic := "", id := 0, size := 0,
    userdata := none, free := none }

/-- A little-endian plugin with an empty state stack. -/
def samplePlugin : ProcessorPlugin :=
  { _statestack := [], _endianness := endianness_t.LittleEndian }

/-! ## Byte-level lemmas -/

namespace Endianness

theorem length_toLE (n v : Nat) : (toLE n v).length = n := by
  induction n generalizing v with
  | zero => rfl
  | succ n ih => simp [toLE, ih]

theorem toLE_lt (n v b : Nat) (hb : b ∈ toLE n v) : b < 256 := by
  induction n generalizing v with
  | zero => simp [toLE] at hb
  | succ n ih =>
    simp only [toLE, List.mem_cons] at hb
    rcases hb with rfl | hb
    · exact Nat.mod_lt _ (by decide)
    · exact ih _ hb

theorem fromLE_toLE (n v : Nat) : fromLE (toLE n v) = v % 256 ^ n := by
  induction n generalizing v with
  | zero => simp [toLE, fromLE, Nat.mod_one]
  | succ n ih =>
    simp only [toLE, fromLE, ih, Nat.mod_mod]
    rw [pow_succ, mul_comm (256 ^ n) 256, Nat.mod_mul]

theorem toLE_fromLE (bs : List Nat) (h : ∀ b ∈ bs, b < 256) :
    toLE bs.length (fromLE bs) = bs := by
  induction bs with
  | nil => rfl
  | cons b bs ih =>
    have hb : b < 256 := h b (List.mem_cons_self _ _)
    have hbs : ∀ c ∈ bs, c < 256 := fun c hc => h c (List.mem_cons_of_mem _ hc)
    simp only [List.length_cons, toLE, fromLE]
    rw [Nat.mod_eq_of_lt hb]
    have h1 : (b + 256 * fromLE bs) % 256 = b := by omega
    have h2 : (b + 256 * fromLE bs) / 256 = fromLE bs := by omega
    rw [h1, h2, ih hbs]

theorem fromBE_append (xs : List Nat) (b : Nat) :
    fromBE (xs ++ [b]) = fromBE xs * 256 + b % 256 := by
  simp [fromBE, List.foldl_append]

theorem fromBE_reverse (bs : List Nat) : fromBE bs.reverse = fromLE bs := by
  induction bs with
  | nil => rfl
  | cons b bs ih =>
    rw [List.reverse_cons, fromBE_append, ih, fromLE]
    omega

theorem fromLE_reverse (bs : List Nat) : fromLE bs.reverse = fromBE bs := by
  have h := fromBE_reverse bs.reverse
  rw [List.reverse_reverse] at h
  exact h.symm

theorem swap_eq_fromBE (n t : Nat) : swap n t = fromBE (toLE n t) := by
  unfold swap
  exact fromLE_reverse _

theorem swap_fromLE (bs : List Nat) (h : ∀ b ∈ bs, b < 256) :
    swap bs.length (fromLE bs) = fromBE bs := by
  rw [swap_eq_fromBE, toLE_fromLE bs h]

theorem swap_fromBE (bs : List Nat) (h : ∀ b ∈ bs, b < 256) :
    swap bs.length (fromBE bs) = fromLE bs := by
  have h1 : ∀ b ∈ bs.reverse, b < 256 := fun b hb => h b (List.mem_reverse.mp hb)
  have h2 := swap_fromLE bs.reverse h1
  rw [List.length_reverse, fromLE_reverse, fromBE_reverse] at h2
  exact h2

theorem toLE_eq_map (n v : Nat) :
    toLE n v = (List.range n).map (fun i => v / 256 ^ i % 256) := by
  induction n generalizing v with
  | zero => rfl
  | succ n ih =>
    rw [toLE, ih, List.range_succ_eq_map, List.map_cons, List.map_map]
    simp only [pow_zero, Nat.div_one, List.cons.injEq, true_and]
    apply List.map_congr_left
    intro i _
    simp only [Function.comp, pow_succ, Nat.div_div_eq_div_mul]
    rw [mul_comm]

end Endianness

theorem byteReversed_eq_swap (n v : Nat) : byteReversed n v = Endianness.swap n v := by
  rw [Endianness.swap_eq_fromBE, Endianness.toLE_eq_map, Endianness.fromBE, List.foldl_map]
  unfold byteReversed
  congr 1
  funext acc i
  rw [Nat.mod_mod]

/-! ## Bit-mask lemmas -/

theorem or_and_of_disjoint (a j c : Nat) (ha : a &&& c = 0) (hj : j &&& c = 0) :
    (a ||| j) &&& c = 0 := by
  rw [Nat.and_comm, Nat.and_or_distrib_left, Nat.and_comm c a, Nat.and_comm c j, ha, hj]
  rfl

theorem or_and_self_ne_zero (a j : Nat) (hj : j ≠ 0) : (a ||| j) &&& j ≠ 0 := by
  intro h
  apply hj
  apply Nat.eq_of_testBit_eq
  intro i
  have hi := congrArg (fun n => Nat.testBit n i) h
  simp only [Nat.testBit_and, Nat.testBit_or, Nat.zero_testBit] at hi
  rw [Nat.zero_testBit]
  cases hb : j.testBit i
  · rfl
  · rw [hb] at hi
    simp at hi

/-! ## The adapter, step by step -/

theorem engine_failure_step (types : InstructionTypes) (cs : Capstone)
    (base : Buffer → Instruction → Bool × Instruction) (buffer : Buffer) (r : Instruction)
    (h : cs.cs_disasm_iter buffer.data buffer.length r.address = none) :
    CapstoneProcessorPlugin.decode types cs base buffer r = (false, r) := by
  unfold CapstoneProcessorPlugin.decode
  simp only [h]

theorem engine_success_step (types : InstructionTypes) (cs : Capstone)
    (base : Buffer → Instruction → Bool × Instruction) (buffer : Buffer) (r : Instruction)
    (insn : cs_insn) (code1 : List Nat) (size1 addr1 : Nat)
    (h : cs.cs_disasm_iter buffer.data buffer.length r.address
      = some (insn, code1, size1, addr1)) :
    CapstoneProcessorPlugin.decode types cs base buffer r
      = base { buffer with length := size1 } (populated types cs r insn) := by
  unfold CapstoneProcessorPlugin.decode
  simp only [h]
  congr 1
  unfold populated groupFlags releaseOne
  cases cs.cs_insn_group insn cs_group_type.CS_GRP_JUMP <;>
  cases cs.cs_insn_group insn cs_group_type.CS_GRP_CALL <;>
  cases cs.cs_insn_group insn cs_group_type.CS_GRP_RET <;>
  cases cs.cs_insn_group insn cs_group_type.CS_GRP_INT <;>
  cases cs.cs_insn_group insn cs_group_type.CS_GRP_IRET <;>
  simp [Nat.or_assoc]

/-! ## The state stack, step by step -/

theorem popStates_add (m n : Nat) (self : ProcessorPlugin) :
    popStates (m + n) self
      = match popStates m self with
        | none => none
        | some (tops1, self1) =>
          match popStates n self1 with
          | none => none
          | some (tops2, self2) => some (tops1 ++ tops2, self2) := by
  induction m generalizing self with
  | zero =>
    simp only [Nat.zero_add, popStates]
    cases popStates n self with
    | none => rfl
    | some p => simp
  | succ m ih =>
    rw [Nat.add_right_comm]
    simp only [popStates]
    cases hpop : self.popState with
    | none => rfl
    | some p =>
      obtain ⟨top, self1⟩ := p
      simp only [ih]
      cases popStates m self1 with
      | none => rfl
      | some q =>
        obtain ⟨tops1, self2⟩ := q
        simp only
        cases popStates n self2 with
        | none => rfl
        | some q2 => simp

theorem popStates_pushStates (vs : List Nat) (self : ProcessorPlugin) :
    popStates vs.length (pushStates vs self)
      = some ((vs.map (fun v => v % 2 ^ 32)).reverse, self) := by
  induction vs generalizing self with
  | nil => rfl
  | cons v vs ih =>
    rw [List.length_cons, pushStates, popStates_add, ih]
    simp [popStates, ProcessorPlugin.popState, ProcessorPlugin.pushState]

/-! ## Claims -/

/-- C1: when the first `sizeofT` bytes of the window are the value `v` written in
little-endian order, `read` returns `v` on a plugin configured `LittleEndian` and the
byte-reversed value of `v` on a plugin configured `BigEndian`, whatever the byte order
of the machine. -/
theorem read_roundtrip (current : endianness_t) (self : ProcessorPlugin)
    (sizeofT v : Nat) (buffer : Buffer) (hv : v < 256 ^ sizeofT)
    (hbytes : buffer.data.take sizeofT = Endianness.toLE sizeofT v) :
    (self.endianness = endianness_t.LittleEndian →
        (self.read current sizeofT buffer).map Prod.fst = some v)
      ∧ (self.endianness = endianness_t.BigEndian →
        (self.read current sizeofT buffer).map Prod.fst
          = some (byteReversed sizeofT v)) := by
  have hlen : ¬ buffer.data.length < sizeofT := by
    have h := congrArg List.length hbytes
    rw [List.length_take, Endianness.length_toLE] at h
    omega
  have hLE : Endianness.fromLE (Endianness.toLE sizeofT v) = v := by
    rw [Endianness.fromLE_toLE, Nat.mod_eq_of_lt hv]
  have hsw := Endianness.swap_fromBE (Endianness.toLE sizeofT v)
    (Endianness.toLE_lt sizeofT v)
  rw [Endianness.length_toLE, hLE] at hsw
  constructor
  · intro hcfg
    unfold ProcessorPlugin.read
    rw [if_neg hlen, hbytes]
    simp only [hcfg, Option.map_some', Endianness.fromHost, Endianness.cfle]
    cases current
    · simp [hLE]
    · simp [hsw]
  · intro hcfg
    unfold ProcessorPlugin.read
    rw [if_neg hlen, hbytes, byteReversed_eq_swap]
    simp only [hcfg, Option.map_some', Endianness.fromHost, Endianness.cfbe]
    cases current
    · simp [hLE]
    · simp [Endianness.swap_eq_fromBE]

/-- C1, at the window `[0x01,0x00,0x00,0x00]` read as a 32-bit value: `1` under
`LittleEndian`, `16777216` under `BigEndian`. -/
theorem read_roundtrip_witness :
    (ProcessorPlugin.read endianness_t.LittleEndian
        { _statestack := [], _endianness := endianness_t.LittleEndian } 4
        { data := [0x01, 0x00, 0x00, 0x00], length := 4 }).map Prod.fst = some 1
      ∧ (ProcessorPlugin.read endianness_t.LittleEndian
        { _statestack := [], _endianness := endianness_t.BigEndian } 4
        { data := [0x01, 0x00, 0x00, 0x00], length := 4 }).map Prod.fst = some 16777216 :=
  ⟨(read_roundtrip endianness_t.LittleEndian
      { _statestack := [], _endianness := endianness_t.LittleEndian } 4 1
      { data := [0x01, 0x00, 0x00, 0x00], length := 4 } (by decide) (by decide)).1 rfl,
   (read_roundtrip endianness_t.LittleEndian
      { _statestack := [], _endianness := endianness_t.BigEndian } 4 1
      { data := [0x01, 0x00, 0x00, 0x00], length := 4 } (by decide) (by decide)).2 rfl⟩

/-- C2: when the single-instruction decode of the engine fails, the adapter returns false
and the record is, field for field, the record it was given. -/
theorem decode_failure (types : InstructionTypes) (cs : Capstone)
    (base : Buffer → Instruction → Bool × Instruction) (buffer : Buffer)
    (instruction : Instruction)
    (h : cs.cs_disasm_iter buffer.data buffer.length instruction.address = none) :
    CapstoneProcessorPlugin.decode types cs base buffer instruction
      = (false, instruction) :=
  engine_failure_step types cs base buffer instruction h

/-- C2, on a window of one byte that holds the first byte of a five-byte jump. -/
theorem decode_failure_witness :
    CapstoneProcessorPlugin.decode sampleTypes sampleEngine ProcessorPlugin.decode
        { data := [0xE9], length := 1 } (freshRecord 0x1000)
      = (false, freshRecord 0x1000) :=
  decode_failure sampleTypes sampleEngine ProcessorPlugin.decode
    { data := [0xE9], length := 1 } (freshRecord 0x1000) (by decide)

/-- C3: on a successful engine decode the adapter adds to `type` the union of the flags
selected by group membership and nothing else: the record handed to the base hook has
`type` equal to the old `type` OR that union, and so has the record the call leaves when
the base hook keeps `type`. -/
theorem decode_type_additive (types : InstructionTypes) (cs : Capstone)
    (base : Buffer → Instruction → Bool × Instruction) (buffer : Buffer)
    (instruction : Instruction) (insn : cs_insn) (code1 : List Nat) (size1 addr1 : Nat)
    (h : cs.cs_disasm_iter buffer.data buffer.length instruction.address
      = some (insn, code1, size1, addr1)) :
    (∃ handed, CapstoneProcessorPlugin.decode types cs base buffer instruction
          = base { buffer with length := size1 } handed
        ∧ handed.type = instruction.type ||| groupFlags types cs insn)
      ∧ ((∀ b i, (base b i).2.type = i.type) →
        (CapstoneProcessorPlugin.decode types cs base buffer instruction).2.type
          = instruction.type ||| groupFlags types cs insn) := by
  have hd := engine_success_step types cs base buffer instruction insn code1 size1 addr1 h
  refine ⟨⟨populated types cs instruction insn, hd, rfl⟩, fun hbase => ?_⟩
  rw [hd, hbase]
  rfl

/-- C3, on an interrupt-return of the sample engine (groups interrupt-return and return)
decoded into a record whose `type` already holds `Jump`: `Stop` and `Privileged` are both
added and `Jump` stays. -/
theorem decode_type_additive_witness :
    (CapstoneProcessorPlugin.decode sampleTypes sampleEngine ProcessorPlugin.decode
        { data := [0xCF], length := 1 }
        { freshRecord 0x1000 with type := sampleTypes.Jump }).2.type
      = sampleTypes.Jump ||| sampleTypes.Stop ||| sampleTypes.Privileged :=
  (decode_type_additive sampleTypes sampleEngine ProcessorPlugin.decode
    { data := [0xCF], length := 1 } { freshRecord 0x1000 with type := sampleTypes.Jump }
    sampleIret
    [] 0 0x1001 (by decide)).2 (fun _ _ => rfl)

/-- C4 as stated fails: a jump of the sample engine, in the jump group only, decoded into
a record whose `type` already holds `Call`, leaves a `type` that includes `Call`. -/
theorem decode_jump_only_counterexample :
    sampleTypes.Distinct
      ∧ sampleEngine.cs_disasm_iter [0xE9, 0, 0, 0, 0] 5 0x1000
        = some (sampleJmp, [], 0, 0x1005)
      ∧ jumpOnly sampleEngine sampleJmp
      ∧ includes (CapstoneProcessorPlugin.decode sampleTypes sampleEngine
          ProcessorPlugin.decode { data := [0xE9, 0, 0, 0, 0], length := 5 }
          { freshRecord 0x1000 with type := sampleTypes.Call }).2.type sampleTypes.Call := by
  refine ⟨by unfold InstructionTypes.Distinct; decide, by decide,
    by unfold jumpOnly; decide, ?_⟩
  unfold includes
  decide

/-- C4, amended: for a successfully decoded instruction in the jump group only, canonical
flags that are non-zero and pairwise disjoint, a base hook that keeps `type`, and a
record whose `type` holds none of `Call`, `Stop`, `Privileged` before the call, the
`type` after the call includes `Jump` and none of `Call`, `Stop`, `Privileged`. -/
theorem decode_jump_only (types : InstructionTypes) (cs : Capstone)
    (base : Buffer → Instruction → Bool × Instruction) (buffer : Buffer)
    (instruction : Instruction) (insn : cs_insn) (code1 : List Nat) (size1 addr1 : Nat)
    (hd : types.Distinct)
    (h : cs.cs_disasm_iter buffer.data buffer.length instruction.address
      = some (insn, code1, size1, addr1))
    (hj : jumpOnly cs insn)
    (hbase : ∀ b i, (base b i).2.type = i.type)
    (hcall : instruction.type &&& types.Call = 0)
    (hstop : instruction.type &&& types.Stop = 0)
    (hpriv : instruction.type &&& types.Privileged = 0) :
    includes (CapstoneProcessorPlugin.decode types cs base buffer instruction).2.type
        types.Jump
      ∧ ¬ includes (CapstoneProcessorPlugin.decode types cs base buffer instruction).2.type
        types.Call
      ∧ ¬ includes (CapstoneProcessorPlugin.decode types cs base buffer instruction).2.type
        types.Stop
      ∧ ¬ includes (CapstoneProcessorPlugin.decode types cs base buffer instruction).2.type
        types.Privileged := by
  have hd1 := engine_success_step types cs base buffer instruction insn code1 size1 addr1 h
  obtain ⟨hJ, _, _, _, hJC, hJS, hJP, _⟩ := hd
  obtain ⟨g1, g2, g3, g4, g5⟩ := hj
  have ht : (CapstoneProcessorPlugin.decode types cs base buffer instruction).2.type
      = instruction.type ||| types.Jump := by
    rw [hd1, hbase]
    simp [populated, groupFlags, g1, g2, g3, g4, g5]
  rw [ht]
  unfold includes
  refine ⟨or_and_self_ne_zero _ _ hJ, ?_, ?_, ?_⟩
  · rw [or_and_of_disjoint _ _ _ hcall hJC]; simp
  · rw [or_and_of_disjoint _ _ _ hstop hJS]; simp
  · rw [or_and_of_disjoint _ _ _ hpriv hJP]; simp

/-- C4, amended, on a jump of the sample engine decoded into a fresh record. -/
theorem decode_jump_only_witness :
    includes (CapstoneProcessorPlugin.decode sampleTypes sampleEngine
        ProcessorPlugin.decode { data := [0xE9, 0, 0, 0, 0], length := 5 }
        (freshRecord 0x1000)).2.type sampleTypes.Jump
      ∧ ¬ includes (CapstoneProcessorPlugin.decode sampleTypes sampleEngine
        ProcessorPlugin.decode { data := [0xE9, 0, 0, 0, 0], length := 5 }
        (freshRecord 0x1000)).2.type sampleTypes.Call
      ∧ ¬ includes (CapstoneProcessorPlugin.decode sampleTypes sampleEngine
        ProcessorPlugin.decode { data := [0xE9, 0, 0, 0, 0], length := 5 }
        (freshRecord 0x1000)).2.type sampleTypes.Stop
      ∧ ¬ includes (CapstoneProcessorPlugin.decode sampleTypes sampleEngine
        ProcessorPlugin.decode { data := [0xE9, 0, 0, 0, 0], length := 5 }
        (freshRecord 0x1000)).2.type sampleTypes.Privileged :=
  decode_jump_only sampleTypes sampleEngine ProcessorPlugin.decode
    { data := [0xE9, 0, 0, 0, 0], length := 5 } (freshRecord 0x1000)
    sampleJmp [] 0 0x1005
    (by unfold InstructionTypes.Distinct; decide) (by decide)
    (by unfold jumpOnly; decide) (fun _ _ => rfl) (by decide) (by decide) (by decide)

/-- C5: on a successful engine decode the record handed to the base hook has the
`mnemonic`, `id` and `size` of the decoded instruction, the engine object as `userdata`,
and a release hook that frees that one object through `cs_free`; so has the record the
call leaves when the base hook keeps these fields. -/
theorem decode_populates (types : InstructionTypes) (cs : Capstone)
    (base : Buffer → Instruction → Bool × Instruction) (buffer : Buffer)
    (instruction : Instruction) (insn : cs_insn) (code1 : List Nat) (size1 addr1 : Nat)
    (h : cs.cs_disasm_iter buffer.data buffer.length instruction.address
      = some (insn, code1, size1, addr1)) :
    (∃ handed, CapstoneProcessorPlugin.decode types cs base buffer instruction
          = base { buffer with length := size1 } handed
        ∧ carries insn handed)
      ∧ ((∀ b i, carries insn i → carries insn (base b i).2) →
        carries insn (CapstoneProcessorPlugin.decode types cs base buffer instruction).2) := by
  have hd := engine_success_step types cs base buffer instruction insn code1 size1 addr1 h
  have hc : carries insn (populated types cs instruction insn) :=
    ⟨rfl, rfl, rfl, rfl, rfl⟩
  refine ⟨⟨populated types cs instruction insn, hd, hc⟩, fun hbase => ?_⟩
  rw [hd]
  exact hbase _ _ hc

/-- C5, on a jump of the sample engine decoded into a fresh record. -/
theorem decode_populates_witness :
    carries sampleJmp
      (CapstoneProcessorPlugin.decode sampleTypes sampleEngine ProcessorPlugin.decode
        { data := [0xE9, 0, 0, 0, 0], length := 5 } (freshRecord 0x1000)).2 :=
  (decode_populates sampleTypes sampleEngine ProcessorPlugin.decode
    { data := [0xE9, 0, 0, 0, 0], length := 5 } (freshRecord 0x1000)
    sampleJmp [] 0 0x1005 (by decide)).2 (fun _ _ hc => hc)

/-- C6: on a successful engine decode the adapter returns what the base hook returns on
the populated record: true exactly when the base hook returns true there, hence true
when the base hook always succeeds and false when the base hook vetoes. -/
theorem decode_result (types : InstructionTypes) (cs : Capstone)
    (base : Buffer → Instruction → Bool × Instruction) (buffer : Buffer)
    (instruction : Instruction) (insn : cs_insn) (code1 : List Nat) (size1 addr1 : Nat)
    (h : cs.cs_disasm_iter buffer.data buffer.length instruction.address
      = some (insn, code1, size1, addr1)) :
    (CapstoneProcessorPlugin.decode types cs base buffer instruction).1
        = (base { buffer with length := size1 } (populated types cs instruction insn)).1
      ∧ ((∀ b i, (base b i).1 = true) →
        (CapstoneProcessorPlugin.decode types cs base buffer instruction).1 = true)
      ∧ ((∀ b i, (base b i).1 = false) →
        (CapstoneProcessorPlugin.decode types cs base buffer instruction).1 = false) := by
  have hd := engine_success_step types cs base buffer instruction insn code1 size1 addr1 h
  refine ⟨by rw [hd], fun hbase => ?_, fun hbase => ?_⟩
  · rw [hd, hbase]
  · rw [hd, hbase]

/-- C6, on a return of the sample engine: true with the base hook that always succeeds,
false with a base hook that vetoes. -/
theorem decode_result_witness :
    (CapstoneProcessorPlugin.decode sampleTypes sampleEngine ProcessorPlugin.decode
        { data := [0xC3], length := 1 } (freshRecord 0x1000)).1 = true
      ∧ (CapstoneProcessorPlugin.decode sampleTypes sampleEngine vetoHook
        { data := [0xC3], length := 1 } (freshRecord 0x1000)).1 = false :=
  ⟨(decode_result sampleTypes sampleEngine ProcessorPlugin.decode
      { data := [0xC3], length := 1 } (freshRecord 0x1000)
      { id := 2, address := 0x1000, size := 1, mnemonic := "ret",
        groups := [cs_group_type.CS_GRP_RET] } [] 0 0x1001 (by decide)).2.1
      (fun _ _ => rfl),
   (decode_result sampleTypes sampleEngine vetoHook
      { data := [0xC3], length := 1 } (freshRecord 0x1000)
      { id := 2, address := 0x1000, size := 1, mnemonic := "ret",
        groups := [cs_group_type.CS_GRP_RET] } [] 0 0x1001 (by decide)).2.2
      (fun _ _ => rfl)⟩

/-- C7 as stated fails: after a 4-byte read on the 8-byte window
`[1,0,0,0,2,0,0,0]` the window still has its 8 bytes and its length 8, not 4, and a
second read returns 1 again, not the next value 2. -/
theorem read_consumes_counterexample :
    ∃ v w, samplePlugin.read endianness_t.LittleEndian 4
          { data := [1, 0, 0, 0, 2, 0, 0, 0], length := 8 } = some (v, w)
      ∧ v = 1 ∧ w.data = [1, 0, 0, 0, 2, 0, 0, 0] ∧ w.length = 8 ∧ w.length ≠ 8 - 4
      ∧ (samplePlugin.read endianness_t.LittleEndian 4 w).map Prod.fst = some 1
      ∧ (samplePlugin.read endianness_t.LittleEndian 4
          { data := [2, 0, 0, 0], length := 4 }).map Prod.fst = some 2 :=
  ⟨1, { data := [1, 0, 0, 0, 2, 0, 0, 0], length := 8 }, by decide, rfl, rfl, rfl,
    by decide, by decide, by decide⟩

/-- C7, amended: on a window of length at least `sizeofT` that lies within readable
memory, `read` returns a value and leaves the window as it was, same start and same
length, so a second read on it returns the same value. -/
theorem read_leaves_window (current : endianness_t) (self : ProcessorPlugin)
    (sizeofT : Nat) (buffer : Buffer) (hlen : sizeofT ≤ buffer.length)
    (hwin : buffer.length ≤ buffer.data.length) :
    ∃ v, self.read current sizeofT buffer = some (v, buffer)
      ∧ ∀ w, (self.read current sizeofT buffer).map Prod.snd = some w →
        self.read current sizeofT w = some (v, buffer) := by
  have hn : ¬ buffer.data.length < sizeofT := by omega
  unfold ProcessorPlugin.read
  simp only [if_neg hn, Option.map_some', Option.some.injEq]
  refine ⟨_, rfl, fun w hw => ?_⟩
  subst hw
  simp only [if_neg hn]

/-- C7, amended, on the 8-byte window `[1,0,0,0,2,0,0,0]` read as a 32-bit value. -/
theorem read_leaves_window_witness :
    ∃ v, samplePlugin.read endianness_t.LittleEndian 4
          { data := [1, 0, 0, 0, 2, 0, 0, 0], length := 8 }
        = some (v, { data := [1, 0, 0, 0, 2, 0, 0, 0], length := 8 })
      ∧ ∀ w, (samplePlugin.read endianness_t.LittleEndian 4
          { data := [1, 0, 0, 0, 2, 0, 0, 0], length := 8 }).map Prod.snd = some w →
        samplePlugin.read endianness_t.LittleEndian 4 w
          = some (v, { data := [1, 0, 0, 0, 2, 0, 0, 0], length := 8 }) :=
  read_leaves_window endianness_t.LittleEndian samplePlugin 4
    { data := [1, 0, 0, 0, 2, 0, 0, 0], length := 8 } (by decide) (by decide)

/-- C8 as stated fails: `DelaySlot` has a bit among the low 16 bits, and it shares
that bit with `Jump = 1<<0`. -/
theorem capability_bits_counterexample :
    ProcessorFlags.DelaySlot &&& 0xFFFF ≠ 0
      ∧ ProcessorFlags.DelaySlot &&& InstructionTypes.JumpBit ≠ 0 := by
  decide

/-- C8, amended: the three capability bits are non-zero and pairwise disjoint;
`HasVMIL` and `EmulateVMIL` have no bit among the low 16 bits and share no bit with
`Jump = 1<<0`; `DelaySlot` is the low bit 1, the same number as `Jump = 1<<0`. -/
theorem capability_bits :
    ProcessorFlags.DelaySlot ≠ 0 ∧ ProcessorFlags.HasVMIL ≠ 0
      ∧ ProcessorFlags.EmulateVMIL ≠ 0
      ∧ ProcessorFlags.DelaySlot &&& ProcessorFlags.HasVMIL = 0
      ∧ ProcessorFlags.DelaySlot &&& ProcessorFlags.EmulateVMIL = 0
      ∧ ProcessorFlags.HasVMIL &&& ProcessorFlags.EmulateVMIL = 0
      ∧ ProcessorFlags.HasVMIL &&& 0xFFFF = 0
      ∧ ProcessorFlags.EmulateVMIL &&& 0xFFFF = 0
      ∧ ProcessorFlags.HasVMIL &&& InstructionTypes.JumpBit = 0
      ∧ ProcessorFlags.EmulateVMIL &&& InstructionTypes.JumpBit = 0
      ∧ ProcessorFlags.DelaySlot = 1
      ∧ ProcessorFlags.DelaySlot = InstructionTypes.JumpBit := by
  decide

/-- C9: on a plugin whose state stack is empty, N pushes of 32-bit snapshots followed by
N pops leave the stack empty and the plugin as it was, the pops yield the snapshots in
the reverse of the order they were pushed in, each pop that of its matching push, and a
pop on the empty stack yields no value. -/
theorem state_stack_balance (self : ProcessorPlugin) (vs : List Nat)
    (hempty : self._statestack = []) (hvs : ∀ v ∈ vs, v < 2 ^ 32) :
    popStates vs.length (pushStates vs self) = some (vs.reverse, self)
      ∧ (∀ tops self1, popStates vs.length (pushStates vs self) = some (tops, self1) →
          self1._statestack = [])
      ∧ self.popState = none := by
  have hmap : vs.map (fun v => v % 2 ^ 32) = vs := by
    conv_rhs => rw [← List.map_id vs]
    apply List.map_congr_left
    intro v hv
    exact Nat.mod_eq_of_lt (hvs v hv)
  have hpp := popStates_pushStates vs self
  rw [hmap] at hpp
  refine ⟨hpp, fun tops self1 h1 => ?_, ?_⟩
  · rw [hpp] at h1
    simp only [Option.some.injEq, Prod.mk.injEq] at h1
    rw [← h1.2]
    exact hempty
  · unfold ProcessorPlugin.popState
    rw [hempty]

/-- C9, on three pushes and three pops. -/
theorem state_stack_balance_witness :
    popStates 3 (pushStates [7, 8, 9] samplePlugin) = some ([9, 8, 7], samplePlugin)
      ∧ (∀ tops self1, popStates 3 (pushStates [7, 8, 9] samplePlugin)
          = some (tops, self1) → self1._statestack = [])
      ∧ samplePlugin.popState = none :=
  state_stack_balance samplePlugin [7, 8, 9] rfl (by decide)

/-- C10: the adapter does not write `address`: on engine failure the record keeps it, on
engine success the record handed to the base hook has it, and whenever the base hook
keeps `address` the record the call leaves has the `address` it came with, whatever
address the engine has advanced to. -/
theorem decode_address (types : InstructionTypes) (cs : Capstone)
    (base : Buffer → Instruction → Bool × Instruction) (buffer : Buffer)
    (instruction : Instruction) :
    (cs.cs_disasm_iter buffer.data buffer.length instruction.address = none →
        (CapstoneProcessorPlugin.decode types cs base buffer instruction).2.address
          = instruction.address)
      ∧ (∀ insn code1 size1 addr1,
          cs.cs_disasm_iter buffer.data buffer.length instruction.address
            = some (insn, code1, size1, addr1) →
          ∃ handed, CapstoneProcessorPlugin.decode types cs base buffer instruction
              = base { buffer with length := size1 } handed
            ∧ handed.address = instruction.address)
      ∧ ((∀ b i, (base b i).2.address = i.address) →
        (CapstoneProcessorPlugin.decode types cs base buffer instruction).2.address
          = instruction.address) := by
  refine ⟨fun h => ?_, fun insn code1 size1 addr1 h => ?_, fun hbase => ?_⟩
  · rw [engine_failure_step types cs base buffer instruction h]
  · exact ⟨populated types cs instruction insn,
      engine_success_step types cs base buffer instruction insn code1 size1 addr1 h, rfl⟩
  · cases h : cs.cs_disasm_iter buffer.data buffer.length instruction.address with
    | none => rw [engine_failure_step types cs base buffer instruction h]
    | some p =>
      obtain ⟨insn, code1, size1, addr1⟩ := p
      rw [engine_success_step types cs base buffer instruction insn code1 size1 addr1 h,
        hbase]
      rfl

/-- C10, on a jump of the sample engine at address `0x1000`: the engine advances its
address to `0x1005`, the record keeps `0x1000`. -/
theorem decode_address_witness :
    sampleEngine.cs_disasm_iter [0xE9, 0, 0, 0, 0] 5 0x1000
        = some (sampleJmp, [], 0, 0x1005)
      ∧ (CapstoneProcessorPlugin.decode sampleTypes sampleEngine ProcessorPlugin.decode
          { data := [0xE9, 0, 0, 0, 0], length := 5 } (freshRecord 0x1000)).2.address
        = 0x1000 :=
  ⟨by decide,
   (decode_address sampleTypes sampleEngine ProcessorPlugin.decode
      { data := [0xE9, 0, 0, 0, 0], length := 5 } (freshRecord 0x1000)).2.2
      (fun _ _ => rfl)⟩

end REDasm
